import Mathlib

/-!
# Verification of the CUPS raster stream codec (src/filter/raster.c)

A shallow embedding of the raster codec: the byte-I/O primitives, the
buffered reader used for compressed streams, the PackBits-style row
decompressor, the header codec and the derived-fields update.  Machine
integers are modelled as `Nat`/`Int`; the raw file descriptor is modelled
as the list of bytes it still holds (plus an error flag), and the lowest
OS `read` primitive is additionally modelled by an explicit event trace so
that interrupt retries and permanent errors can be stated.  Fallible
operations return `Option`; a `none` models the C functions' zero/failure
return.
-/

/-- A file descriptor as seen through `cups_read`: the bytes it still
holds, and whether reads past the end report a permanent error (`-1`)
rather than a clean EOF (`0`). -/
structure FD where
  data : List Nat
  errAfter : Bool
deriving DecidableEq

/-- Net effect of `cups_read` (raster.c lines 849-874) on a descriptor:
the loop keeps reading until `len` bytes arrived, so it delivers exactly
`len` bytes when available; a mid-request EOF returns `0` (partial bytes
are still written to the buffer), and a permanent error returns `-1`.
Result: (return value, bytes written to the caller's buffer, new fd). -/
def fdRead (fd : FD) (len : Nat) : Int × List Nat × FD :=
  if len ≤ fd.data.length then
    ((len : Int), fd.data.take len, ⟨fd.data.drop len, fd.errAfter⟩)
  else if fd.errAfter then
    (-1, fd.data, ⟨[], true⟩)
  else
    (0, fd.data, ⟨[], false⟩)

/-- One outcome of the OS-level `read(2)` call inside `cups_read`:
a successful read delivering (a prefix of) `data`, an `EINTR`-class
interruption, or a permanent error. An empty successful read is EOF. -/
inductive OSEv where
  | chunk : List Nat → OSEv
  | eintr : OSEv
  | err : OSEv
deriving DecidableEq

/-- The loop of `cups_read` (raster.c lines 858-871) over an explicit OS
event trace: `total` bytes already arrived out of `bytes` requested, `acc`
holds them.  A `chunk` delivers at most the outstanding amount; delivering
nothing is EOF and returns `0`; `eintr` retries with zero progress
(`count = 0`); any other error returns `-1`.  `none` means the trace ran
out before the loop finished. -/
def cups_read_loop : List OSEv → Nat → Nat → List Nat → Option (Int × List Nat)
  | evs, bytes, total, acc =>
    if bytes ≤ total then some ((total : Int), acc)
    else
      match evs with
      | [] => none
      | OSEv.chunk data :: rest =>
          let count := min data.length (bytes - total)
          if count = 0 then some (0, acc)
          else cups_read_loop rest bytes (total + count) (acc ++ data.take count)
      | OSEv.eintr :: rest => cups_read_loop rest bytes total acc
      | OSEv.err :: _ => some (-1, acc)

/-- `cups_swap` inner loop (raster.c lines 888-899): swap `n` adjacent
byte pairs from the front of the buffer, stopping (as the model's guard
against the C out-of-bounds access) when fewer than two bytes remain. -/
def swapPairsN : Nat → List Nat → List Nat
  | 0, l => l
  | _ + 1, [] => []
  | _ + 1, [a] => [a]
  | n + 1, a :: b :: rest => b :: a :: swapPairsN n rest

/-- `cups_swap(buf, bytes)` (raster.c lines 881-900): swaps `bytes / 2`
adjacent byte pairs at the start of `buf`. -/
def cups_swap (buf : List Nat) (bytes : Nat) : List Nat :=
  swapPairsN (bytes / 2) buf

/-- One word of the header swap (raster.c line 593):
`s->v = (((((s->b[3] << 8) | s->b[2]) << 8) | s->b[1]) << 8) | s->b[0]`.
`big` selects the host byte order that maps the stored word value `w` to
its memory bytes `b[0..3]`; the reassembled value is stored back. -/
def wordSwap (big : Bool) (w : Nat) : Nat :=
  if big then
    (w % 256) * 16777216 + (w / 256 % 256) * 65536 + (w / 65536 % 256) * 256 +
      (w / 16777216 % 256)
  else
    (w / 16777216 % 256) * 16777216 + (w / 65536 % 256) * 65536 + (w / 256 % 256) * 256 +
      (w % 256)

/-- The 81-word header swap (raster.c lines 589-593) applied to the array
of 32-bit words starting at the `AdvanceDistance` field. -/
def headerSwap (big : Bool) (ws : List Nat) : List Nat :=
  ws.map (wordSwap big)

/-- Overwrite `dst` starting at index `pos` with `src` (the effect of a
`memcpy` into a buffer); writes past the end of `dst` extend the list,
mirroring the C writes going past the allocation. -/
def writeAt (dst : List Nat) (pos : Nat) (src : List Nat) : List Nat :=
  dst.take pos ++ src ++ dst.drop (pos + src.length)

/-! ## Sync words and header tags

Modelled from the spec: the constants below come from the reference
`raster.h`, which is not under `src/` (only `raster.c` is); the spec
describes them as six byte-reorderings / revision tags of one canonical
32-bit constant, and fixed tag values for color orders and color spaces. -/

def CUPS_RASTER_SYNC : Nat := 0x52615332
def CUPS_RASTER_REVSYNC : Nat := 0x32536152
def CUPS_RASTER_SYNCv1 : Nat := 0x52615331
def CUPS_RASTER_REVSYNCv1 : Nat := 0x31536152
def CUPS_RASTER_SYNCv2 : Nat := 0x52615333
def CUPS_RASTER_REVSYNCv2 : Nat := 0x33536152

def CUPS_ORDER_CHUNKED : Nat := 0
def CUPS_ORDER_BANDED : Nat := 1
def CUPS_ORDER_PLANAR : Nat := 2

/-- The fields of the page header that the codec core reads or writes
(the rest of the record is carried as opaque bytes where needed). -/
structure PageHeader where
  cupsColorSpace : Nat
  cupsHeight : Nat
  cupsBitsPerColor : Nat
  cupsBitsPerPixel : Nat
  cupsBytesPerLine : Nat
  cupsColorOrder : Nat
  cupsNumColors : Nat
deriving DecidableEq

inductive CupsMode where
  | read
  | write
deriving DecidableEq

/-- The raster stream state `_cups_raster_s` (raster.c lines 75-93).
`avail` is the byte range `bufptr..bufend` of the read buffer, `pcur` the
offset `pcurrent - pixels` into the row buffer. -/
structure RState where
  sync : Nat
  mode : CupsMode
  header : PageHeader
  count : Nat
  remaining : Int
  bpp : Nat
  pixels : List Nat
  pcur : Nat
  compressed : Bool
  swapped : Bool
  fd : FD
  avail : List Nat
  bufsize : Nat
deriving DecidableEq

/-! ## The buffered reader (`cups_raster_read`, raster.c lines 609-740) -/

/-- The read loop of `cups_raster_read` (raster.c lines 654-737), with an
explicit fuel argument for termination; every loop iteration serves at
least one byte, so fuel `n + 1` always suffices for a request of `n`
bytes.  `n` is the outstanding request; `avail` the bytes `bufptr..bufend`
of the read buffer.  On an empty buffer a small (`< 16` bytes) request
refills the whole `bufsize` buffer through `cups_read` and copies from it,
a large request reads directly into the destination; otherwise the
minimum of (outstanding, buffered) bytes is copied out.  A sub-read
returning `≤ 0` aborts with `none` (the C `return (0)`). -/
def rasterReadGo (bufsize : Nat) : Nat → Nat → FD → List Nat → Option (List Nat × FD × List Nat)
  | 0, _, _, _ => none
  | fuel + 1, n, fd, avail =>
    if n = 0 then some ([], fd, avail)
    else if avail.length = 0 then
      if n < 16 then
        let res := fdRead fd bufsize
        if res.1 ≤ 0 then none
        else
          let c := min n res.2.1.length
          match rasterReadGo bufsize fuel (n - c) res.2.2 (res.2.1.drop c) with
          | none => none
          | some (out, fd2, av2) => some (res.2.1.take c ++ out, fd2, av2)
      else
        let res := fdRead fd n
        if res.1 ≤ 0 then none
        else some (res.2.1, res.2.2, avail)
    else
      let c := min n avail.length
      match rasterReadGo bufsize fuel (n - c) fd (avail.drop c) with
      | none => none
      | some (out, fd2, av2) => some (avail.take c ++ out, fd2, av2)

/-- The buffer growth at the top of `cups_raster_read` (raster.c lines
628-648): the read buffer is grown to `2 * cupsBytesPerLine` when
smaller, preserving its contents. -/
def growBufsize (r : RState) : Nat :=
  if 2 * r.header.cupsBytesPerLine > r.bufsize then 2 * r.header.cupsBytesPerLine
  else r.bufsize

/-- `cups_raster_read(r, buf, bytes)` (raster.c lines 609-740): for an
uncompressed stream it forwards to `cups_read`; otherwise it grows the
buffer and runs the buffered loop.  Result: (return value, bytes
delivered, new state).  On failure the C code has already consumed input;
the stream is unusable, and the model returns the entry state. -/
def cups_raster_read (r : RState) (bytes : Nat) : Int × List Nat × RState :=
  if r.compressed = false then
    let res := fdRead r.fd bytes
    (res.1, res.2.1, { r with fd := res.2.2 })
  else
    let bsize := growBufsize r
    match rasterReadGo bsize (bytes + 1) bytes r.fd r.avail with
    | none => (0, [], r)
    | some (out, fd2, av2) =>
        ((bytes : Int), out, { r with fd := fd2, avail := av2, bufsize := bsize })

/-! ## The PackBits row decompressor (`cupsRasterReadPixels`, lines 310-453) -/

/-- The opcode loop of `cupsRasterReadPixels` (raster.c lines 338-392),
decoding one row into `row` starting at offset `pos`, with `budget` row
bytes still owed (`bytes` in the C code).  A byte with the high bit set
starts a literal run of `(257 - b) * bpp` bytes; one with the high bit
clear starts a repeat run: the next `bpp` bytes form a pel that is
replayed by the overlapping forward copy.  Both runs clamp to `budget`;
a repeat run whose clamped length is below `bpp` breaks out of the loop,
returning the residual budget (the value `bytes` has at the `cups_swap`
call site).  Fuel `budget + 1` always suffices, since every iteration
that recurses has consumed at least one budget byte. -/
def decodeOps (bpp : Nat) : Nat → RState → List Nat → Nat → Nat → Option (List Nat × Nat × RState)
  | 0, _, _, _, _ => none
  | fuel + 1, r, row, pos, budget =>
    if budget = 0 then some (row, 0, r)
    else
      let res1 := cups_raster_read r 1
      if res1.1 = 0 then none
      else
        let b := res1.2.1.headD 0
        let r1 := res1.2.2
        if b &&& 128 ≠ 0 then
          let c := min ((257 - b) * bpp) budget
          let res2 := cups_raster_read r1 c
          if res2.1 = 0 then none
          else decodeOps bpp fuel res2.2.2 (writeAt row pos res2.2.1) (pos + c) (budget - c)
        else
          let c := min ((b + 1) * bpp) budget
          if c < bpp then some (row, budget, r1)
          else
            let res2 := cups_raster_read r1 bpp
            if res2.1 = 0 then none
            else
              let reps := (c + bpp - 1) / bpp
              decodeOps bpp fuel res2.2.2
                (writeAt row pos (List.flatten (List.replicate reps res2.2.1)))
                (pos + reps * bpp) (budget - c)

/-- The compressed-path loop of `cupsRasterReadPixels` (raster.c lines
310-450).  `pbuf` is the caller's buffer contents, `off` the bytes
already served out of `len`.  With no row under replay (`count = 0`) a
row block is decoded: one repeat-count byte, then the opcode loop; the
result is pair-swapped over the residual budget when the 16-bit flags and
`swapped` hold, then either a full row is consumed (`count` and
`remaining` decrement) or a partial row is copied and the cursor parked.
With `count ≠ 0` the row buffer is replayed from the cursor.  Fuel
`len + remaining + 1` always suffices: every iteration either serves a
byte or decrements `remaining`. -/
def readPixelsGo : Nat → RState → List Nat → Nat → Nat → Option (List Nat × RState)
  | 0, _, _, _, _ => none
  | fuel + 1, r, pbuf, off, len =>
    if len - off = 0 ∨ r.remaining ≤ 0 then some (pbuf, r)
    else
      let remU := len - off
      let cbpl := r.header.cupsBytesPerLine
      if r.count = 0 then
        let res1 := cups_raster_read r 1
        if res1.1 = 0 then none
        else
          let cnt := res1.2.1.headD 0 + 1
          let r1 := res1.2.2
          let fast := remU = cbpl ∧ cnt ≤ 1
          let row0 := if fast then pbuf.drop off else r1.pixels
          match decodeOps r1.bpp (cbpl + 1) r1 row0 0 cbpl with
          | none => none
          | some (row, resid, r2) =>
            let doSwap := (r.header.cupsBitsPerColor = 16 ∨ r.header.cupsBitsPerPixel = 12 ∨
                           r.header.cupsBitsPerPixel = 16) ∧ r.swapped
            let row1 := if doSwap then cups_swap row resid else row
            if cbpl ≤ remU then
              let r3 := { r2 with
                pcur := 0
                count := cnt - 1
                remaining := r2.remaining - 1
                pixels := if fast then r2.pixels else row1.take cbpl }
              let pbuf1 := if fast then (pbuf.take off ++ row1).take len
                           else (writeAt pbuf off (row1.take cbpl)).take len
              readPixelsGo fuel r3 pbuf1 (off + cbpl) len
            else
              let r3 := { r2 with pcur := remU, count := cnt, pixels := row1.take cbpl }
              let pbuf1 := (writeAt pbuf off (row1.take remU)).take len
              readPixelsGo fuel r3 pbuf1 (off + remU) len
      else
        let bytes := min (cbpl - r.pcur) remU
        let pbuf1 := (writeAt pbuf off ((r.pixels.drop r.pcur).take bytes)).take len
        let pcur1 := r.pcur + bytes
        let r3 := if cbpl ≤ pcur1 then
                    { r with pcur := 0, count := r.count - 1, remaining := r.remaining - 1 }
                  else { r with pcur := pcur1 }
        readPixelsGo fuel r3 pbuf1 (off + bytes) len

/-- `cupsRasterReadPixels(r, p, len)` (raster.c lines 258-453).  `p0` is
the caller's buffer prior contents.  Wrong mode or an exhausted page
returns 0.  The uncompressed path decrements `remaining` by
`len / cupsBytesPerLine` before the I/O, fails (returns 0) only when
`cups_read` returns 0 -- the `!cups_read(...)` test lets a `-1` error
through -- and pair-swaps the delivered row under the 16-bit flags.  The
compressed path drives the row decoder. -/
def cupsRasterReadPixels (r : RState) (p0 : List Nat) (len : Nat) : Nat × List Nat × RState :=
  if r.mode ≠ CupsMode.read ∨ r.remaining = 0 then (0, p0, r)
  else if r.compressed = false then
    let rem2 := r.remaining - (len / r.header.cupsBytesPerLine : Nat)
    let res := fdRead r.fd len
    let r1 := { r with remaining := rem2, fd := res.2.2 }
    let out := (writeAt p0 0 res.2.1).take len
    if res.1 = 0 then (0, out, r1)
    else
      let doSwap := (r.header.cupsBitsPerColor = 16 ∨ r.header.cupsBitsPerPixel = 12 ∨
                     r.header.cupsBitsPerPixel = 16) ∧ r.swapped
      (len, if doSwap then cups_swap out len else out, r1)
  else
    match readPixelsGo (len + r.remaining.toNat + 1) r p0 0 len with
    | none => (0, p0, r)
    | some (pbuf, r2) => (len, pbuf, r2)

/-- `cupsRasterWritePixels(r, p, len)` (raster.c lines 525-545): wrong
mode or exhausted page returns 0; otherwise `remaining` is decremented by
`len / cupsBytesPerLine` and the result of `cups_write` -- abstracted as
`wres`, which is `len` or `-1` -- is returned. -/
def cupsRasterWritePixels (r : RState) (len : Nat) (wres : Int) : Int × RState :=
  if r.mode ≠ CupsMode.write ∨ r.remaining = 0 then (0, r)
  else (wres, { r with remaining := r.remaining - (len / r.header.cupsBytesPerLine : Nat) })

/-! ## Stream open, header codec, derived-fields update -/

/-- The read branch of `cupsRasterOpen` (raster.c lines 146-177), given
the sync word obtained by `cups_read`: any value outside the six sync
constants fails; otherwise the stream is created with `compressed` set
for the v2 syncs and `swapped` set for the reversed syncs.  Result:
`some (compressed, swapped)` or `none`. -/
def cupsRasterOpenRead (sync : Nat) : Option (Bool × Bool) :=
  if sync ≠ CUPS_RASTER_SYNC ∧ sync ≠ CUPS_RASTER_REVSYNC ∧
     sync ≠ CUPS_RASTER_SYNCv1 ∧ sync ≠ CUPS_RASTER_REVSYNCv1 ∧
     sync ≠ CUPS_RASTER_SYNCv2 ∧ sync ≠ CUPS_RASTER_REVSYNCv2 then
    none
  else
    some
      (if sync = CUPS_RASTER_SYNCv2 ∨ sync = CUPS_RASTER_REVSYNCv2 then true else false,
       if sync = CUPS_RASTER_REVSYNC ∨ sync = CUPS_RASTER_REVSYNCv1 ∨
          sync = CUPS_RASTER_REVSYNCv2 then true else false)

/-- The `cupsNumColors` switch of `cups_raster_update` (raster.c lines
758-807), on the color-space tag values of the reference header
(W=0, RGB=1, RGBA=2, K=3, CMY=4, YMC=5, CMYK=6, YMCK=7, KCMY=8,
KCMYcm=9, GMCK=10, GMCS=11, WHITE=12, GOLD=13, SILVER=14, CIEXYZ=15,
CIELab=16, RGBW=17, ICC1..ICCF=32..46); an unlisted tag leaves the field
unchanged. -/
def cupsNumColorsFor (cspace bitsPerPixel old : Nat) : Nat :=
  if cspace = 0 ∨ cspace = 3 ∨ cspace = 12 ∨ cspace = 13 ∨ cspace = 14 then 1
  else if cspace = 1 ∨ cspace = 4 ∨ cspace = 5 ∨ cspace = 15 ∨ cspace = 16 ∨
          (32 ≤ cspace ∧ cspace ≤ 46) then 3
  else if cspace = 2 ∨ cspace = 17 ∨ cspace = 6 ∨ cspace = 7 ∨ cspace = 8 ∨
          cspace = 10 ∨ cspace = 11 then 4
  else if cspace = 9 then (if bitsPerPixel < 8 then 6 else 4)
  else old

/-- `cups_raster_update(r)` (raster.c lines 748-842): recompute
`cupsNumColors` for V1 streams or a zero field, then `bpp`
(per-pixel under CHUNKED order, per-color otherwise, rounded up to
bytes), then `remaining` (`height * numColors` under PLANAR order, else
`height`); for a compressed stream the row buffer is reallocated zeroed
and the run count reset. -/
def cups_raster_update (r : RState) : RState :=
  let nc :=
    if r.sync = CUPS_RASTER_SYNCv1 ∨ r.sync = CUPS_RASTER_REVSYNCv1 ∨
       r.header.cupsNumColors = 0 then
      cupsNumColorsFor r.header.cupsColorSpace r.header.cupsBitsPerPixel r.header.cupsNumColors
    else r.header.cupsNumColors
  let hdr := { r.header with cupsNumColors := nc }
  let bpp :=
    if hdr.cupsColorOrder = CUPS_ORDER_CHUNKED then (hdr.cupsBitsPerPixel + 7) / 8
    else (hdr.cupsBitsPerColor + 7) / 8
  let rem : Int :=
    if hdr.cupsColorOrder = CUPS_ORDER_PLANAR then ((hdr.cupsHeight * nc : Nat) : Int)
    else (hdr.cupsHeight : Int)
  if r.compressed then
    { r with
      header := hdr
      bpp := bpp
      remaining := rem
      pixels := List.replicate hdr.cupsBytesPerLine 0
      pcur := 0
      count := 0 }
  else { r with header := hdr, bpp := bpp, remaining := rem }

/-- `cupsRasterWriteHeader2(r, h)` (raster.c lines 495-518): in write
mode the caller's header is copied in, the derived fields are updated and
the record is written; `wres` abstracts the `cups_write` result, success
being `> 0`. -/
def cupsRasterWriteHeader2 (r : RState) (h : PageHeader) (wres : Int) : Nat × RState :=
  if r.mode ≠ CupsMode.write then (0, r)
  else
    let r1 := cups_raster_update { r with header := h }
    (if wres > 0 then 1 else 0, r1)

/-- Modelled from the spec: the V1 and V2 page header record sizes, 1796
and 1812 bytes (spec section 6; the struct declarations live in the
reference header, not under src/). -/
def hdrV1Size : Nat := 1796

/-- Modelled from the spec: the V2 page header record size in bytes. -/
def hdrV2Size : Nat := 1812

/-- The record-size selection of `cups_raster_read_header` (raster.c
lines 571-574): V1 record size for a V1 sync, V2 size otherwise. -/
def hdrReadLen (r : RState) : Nat :=
  if r.sync = CUPS_RASTER_SYNCv1 ∨ r.sync = CUPS_RASTER_REVSYNCv1 then hdrV1Size
  else hdrV2Size

/-- The raw record read of `cups_raster_read_header` (raster.c lines
564-583), at byte level: pick the V1 record size for a V1 sync and the V2
size otherwise, zero the whole V2-shaped record, read `len` bytes through
`cups_raster_read`, and fail when fewer than `len` arrive.  The 81-word
swap and the derived-fields update that follow are modelled separately by
`headerSwap` and `cups_raster_update`. -/
def cupsRasterReadHeaderBytes (r : RState) : Option (List Nat × RState) :=
  if r.mode ≠ CupsMode.read then none
  else
    let len := hdrReadLen r
    let res := cups_raster_read r len
    if res.1 < (len : Int) then none
    else some (writeAt (List.replicate hdrV2Size 0) 0 res.2.1, res.2.2)

/-! ## Concrete stream states used by the example-level theorems -/

/-- Header of the C1 boundary example: 8-bit chunked gray, three rows of
four bytes (`bpp = 1`, `cupsBytesPerLine = 4`). -/
def c1hdr : PageHeader := ⟨0, 3, 8, 8, 4, 0, 1⟩

/-- A compressed native-sync stream positioned after its header, whose
wire continues with the row block `02 03 aa` (repeat 2, pel `aa` four
times) followed by five further stream bytes that fill the refill
buffer. -/
def c1st : RState :=
  { sync := CUPS_RASTER_SYNCv2, mode := CupsMode.read, header := c1hdr,
    count := 0, remaining := 3, bpp := 1, pixels := [0, 0, 0, 0], pcur := 0,
    compressed := true, swapped := false,
    fd := ⟨[2, 3, 170, 0, 0, 0, 0, 0], false⟩, avail := [], bufsize := 0 }

/-- Header of the C4 failing input: 16-bit chunked, one row of four
bytes (`bpp = 2`). -/
def c4hdr : PageHeader := ⟨0, 1, 16, 16, 4, 0, 1⟩

/-- A compressed byte-swapped stream (`REVSYNCv2`) whose single row block
is `00 01 aa bb` (repeat 0, pel `aa bb` twice), padded to fill the refill
buffer. -/
def c4st : RState :=
  { sync := CUPS_RASTER_REVSYNCv2, mode := CupsMode.read, header := c4hdr,
    count := 0, remaining := 1, bpp := 2, pixels := [0, 0, 0, 0], pcur := 0,
    compressed := true, swapped := true,
    fd := ⟨[0, 1, 170, 187, 0, 0, 0, 0], false⟩, avail := [], bufsize := 0 }

/-- An uncompressed read stream whose descriptor reports a permanent
error (`cups_read` returns `-1`). -/
def c5st : RState :=
  { sync := CUPS_RASTER_SYNC, mode := CupsMode.read, header := ⟨0, 2, 8, 8, 4, 0, 1⟩,
    count := 0, remaining := 2, bpp := 1, pixels := [], pcur := 0,
    compressed := false, swapped := false,
    fd := ⟨[], true⟩, avail := [], bufsize := 0 }

/-- An uncompressed read stream with a healthy 4-byte row available. -/
def c5wit_st : RState :=
  { sync := CUPS_RASTER_SYNC, mode := CupsMode.read, header := ⟨0, 2, 8, 8, 4, 0, 1⟩,
    count := 0, remaining := 2, bpp := 1, pixels := [], pcur := 0,
    compressed := false, swapped := false,
    fd := ⟨[1, 2, 3, 4], false⟩, avail := [], bufsize := 0 }

/-- An uncompressed V1-sync read stream whose descriptor is already at
EOF, so the header record read comes up short. -/
def c7wit_st : RState :=
  { sync := CUPS_RASTER_SYNCv1, mode := CupsMode.read, header := ⟨0, 2, 8, 8, 4, 0, 1⟩,
    count := 0, remaining := 0, bpp := 1, pixels := [], pcur := 0,
    compressed := false, swapped := false,
    fd := ⟨[], false⟩, avail := [], bufsize := 0 }

/-- A compressed stream used to witness the repeat-opcode abort clause:
its buffered bytes start with the opcode byte `0`. -/
def c1wit_st : RState :=
  { sync := CUPS_RASTER_SYNCv2, mode := CupsMode.read, header := ⟨0, 1, 8, 8, 1, 0, 1⟩,
    count := 0, remaining := 1, bpp := 2, pixels := [0], pcur := 0,
    compressed := true, swapped := false,
    fd := ⟨[], false⟩, avail := [0, 5], bufsize := 2 }


/-- A compressed native-sync stream whose single row block is
`00 07 aa`: the repeat opcode asks for 8 pel copies on a 4-byte row, so
the run is clamped to the remaining row budget. -/
def c1clamp_st : RState :=
  { sync := CUPS_RASTER_SYNCv2, mode := CupsMode.read, header := ⟨0, 1, 8, 8, 4, 0, 1⟩,
    count := 0, remaining := 1, bpp := 1, pixels := [0, 0, 0, 0], pcur := 0,
    compressed := true, swapped := false,
    fd := ⟨[0, 7, 170, 0, 0, 0, 0, 0], false⟩, avail := [], bufsize := 0 }

/-- A compressed stream whose buffered bytes start with the opcode `7`
followed by the pel byte `aa`, used to witness the clamped repeat
run against a two-byte budget. -/
def c1wit2_st : RState :=
  { sync := CUPS_RASTER_SYNCv2, mode := CupsMode.read, header := ⟨0, 1, 8, 8, 2, 0, 1⟩,
    count := 0, remaining := 1, bpp := 1, pixels := [0, 0], pcur := 0,
    compressed := true, swapped := false,
    fd := ⟨[], false⟩, avail := [7, 170, 9, 9], bufsize := 4 }

/-- A write stream with two 4-byte rows outstanding. -/
def c10w_st : RState :=
  { sync := CUPS_RASTER_SYNC, mode := CupsMode.write, header := ⟨0, 2, 8, 8, 4, 0, 1⟩,
    count := 0, remaining := 2, bpp := 1, pixels := [], pcur := 0,
    compressed := false, swapped := false, fd := ⟨[], false⟩, avail := [], bufsize := 0 }

/-! ## Helper lemmas -/

theorem fdRead_pos_length {fd : FD} {k : Nat} (h : 0 < (fdRead fd k).1) :
    (fdRead fd k).2.1.length = k := by
  by_cases hk : k ≤ fd.data.length
  · simp [fdRead, hk]
  · rcases he : fd.errAfter <;> simp [fdRead, hk, he] at h

theorem rasterReadGo_length {bufsize : Nat} :
    ∀ (fuel n : Nat) (fd : FD) (avail out : List Nat) (fd2 : FD) (av2 : List Nat),
      rasterReadGo bufsize fuel n fd avail = some (out, fd2, av2) → out.length = n := by
  intro fuel
  induction fuel with
  | zero => intro n fd avail out fd2 av2 h; simp [rasterReadGo] at h
  | succ fuel ih =>
    intro n fd avail out fd2 av2 h
    simp only [rasterReadGo] at h
    split at h
    · simp_all
    · split at h
      · split at h
        · split at h
          · exact absurd h (by simp)
          · split at h
            · exact absurd h (by simp)
            · rename_i o f2 a2 hrec
              have hlo := ih _ _ _ _ _ _ hrec
              simp only [Option.some.injEq, Prod.mk.injEq] at h
              obtain ⟨h1, -, -⟩ := h
              subst h1
              simp [List.length_append, List.length_take, hlo]
        · split at h
          · exact absurd h (by simp)
          · rename_i hpos
            simp only [Option.some.injEq, Prod.mk.injEq] at h
            obtain ⟨h1, -, -⟩ := h
            subst h1
            exact fdRead_pos_length (by omega)
      · split at h
        · exact absurd h (by simp)
        · rename_i o f2 a2 hrec
          have hlo := ih _ _ _ _ _ _ hrec
          simp only [Option.some.injEq, Prod.mk.injEq] at h
          obtain ⟨h1, -, -⟩ := h
          subst h1
          simp [List.length_append, List.length_take, hlo]

theorem cups_raster_read_exact {r : RState} {n : Nat} (hn : 0 < n)
    (h : (n : Int) ≤ (cups_raster_read r n).1) :
    (cups_raster_read r n).1 = (n : Int) ∧ (cups_raster_read r n).2.1.length = n := by
  by_cases hc : r.compressed = false
  · have hfd1 : (cups_raster_read r n).1 = (fdRead r.fd n).1 := by
      simp [cups_raster_read, hc]
    have hfd2 : (cups_raster_read r n).2.1 = (fdRead r.fd n).2.1 := by
      simp [cups_raster_read, hc]
    rw [hfd1] at h ⊢
    rw [hfd2]
    by_cases hk : n ≤ r.fd.data.length
    · simp [fdRead, hk]
    · rcases he : r.fd.errAfter <;> simp [fdRead, hk, he] at h <;> omega
  · rcases hrec : rasterReadGo (growBufsize r) (n + 1) n r.fd r.avail with _ | ⟨o, f2, a2⟩
    · have hz : (cups_raster_read r n).1 = 0 := by
        simp [cups_raster_read, hc, hrec]
      rw [hz] at h
      omega
    · have h1 : (cups_raster_read r n).1 = (n : Int) := by
        simp [cups_raster_read, hc, hrec]
      have h2 : (cups_raster_read r n).2.1 = o := by
        simp [cups_raster_read, hc, hrec]
      exact ⟨h1, h2 ▸ rasterReadGo_length _ _ _ _ _ _ _ hrec⟩

theorem swapPairsN_invol (n : Nat) : ∀ l : List Nat, swapPairsN n (swapPairsN n l) = l := by
  induction n with
  | zero => intro l; rfl
  | succ n ih =>
    intro l
    rcases l with _ | ⟨a, _ | ⟨b, rest⟩⟩
    · rfl
    · rfl
    · simp [swapPairsN, ih]

theorem wordSwap_shape (b0 b1 b2 b3 : Nat) (h0 : b0 < 256) (h1 : b1 < 256)
    (h2 : b2 < 256) (h3 : b3 < 256) :
    wordSwap true (((b3 * 256 + b2) * 256 + b1) * 256 + b0) =
      ((b0 * 256 + b1) * 256 + b2) * 256 + b3 ∧
    wordSwap false (((b3 * 256 + b2) * 256 + b1) * 256 + b0) =
      ((b3 * 256 + b2) * 256 + b1) * 256 + b0 := by
  have e1 : (((b3 * 256 + b2) * 256 + b1) * 256 + b0) % 256 = b0 := by omega
  have e2 : (((b3 * 256 + b2) * 256 + b1) * 256 + b0) / 256 % 256 = b1 := by omega
  have e3 : (((b3 * 256 + b2) * 256 + b1) * 256 + b0) / 65536 % 256 = b2 := by omega
  have e4 : (((b3 * 256 + b2) * 256 + b1) * 256 + b0) / 16777216 % 256 = b3 := by omega
  constructor
  · show (if true then _ else _) = _
    rw [if_pos rfl, e1, e2, e3, e4]
    ring
  · show (if false = true then _ else _) = _
    rw [if_neg (by simp), e1, e2, e3, e4]
    ring

theorem wordSwap_invol (big : Bool) (w : Nat) (hw : w < 2 ^ 32) :
    wordSwap big (wordSwap big w) = w := by
  obtain ⟨b0, b1, b2, b3, h0, h1, h2, h3, rfl⟩ :
      ∃ b0 b1 b2 b3, b0 < 256 ∧ b1 < 256 ∧ b2 < 256 ∧ b3 < 256 ∧
        w = ((b3 * 256 + b2) * 256 + b1) * 256 + b0 :=
    ⟨w % 256, w / 256 % 256, w / 65536 % 256, w / 16777216,
      by omega, by omega, by omega, by omega, by omega⟩
  cases big
  · rw [(wordSwap_shape b0 b1 b2 b3 h0 h1 h2 h3).2,
        (wordSwap_shape b0 b1 b2 b3 h0 h1 h2 h3).2]
  · rw [(wordSwap_shape b0 b1 b2 b3 h0 h1 h2 h3).1,
        (wordSwap_shape b3 b2 b1 b0 h3 h2 h1 h0).1]

theorem cups_read_loop_range (bytes : Nat) :
    ∀ (evs : List OSEv) (total : Nat) (acc : List Nat) (res : Int × List Nat),
      total ≤ bytes → cups_read_loop evs bytes total acc = some res →
      res.1 = 0 ∨ res.1 = (bytes : Int) ∨ res.1 = -1 := by
  intro evs
  induction evs with
  | nil =>
    intro total acc res htot h
    unfold cups_read_loop at h
    split at h
    · rename_i hge
      have : total = bytes := le_antisymm htot hge
      subst this
      simp only [Option.some.injEq] at h
      right; left
      rw [← h]
    · exact absurd h (by simp)
  | cons e rest ih =>
    intro total acc res htot h
    unfold cups_read_loop at h
    split at h
    · rename_i hge
      have : total = bytes := le_antisymm htot hge
      subst this
      simp only [Option.some.injEq] at h
      right; left
      rw [← h]
    · rename_i hlt
      cases e with
      | chunk data =>
        simp only at h
        split at h
        · simp only [Option.some.injEq] at h
          left
          rw [← h]
        · rename_i hcnt
          exact ih _ _ _ (by omega) h
      | eintr => exact ih _ _ _ htot h
      | err =>
        simp only [Option.some.injEq] at h
        right; right
        rw [← h]

/-! ## Claim theorems -/

/-- C9: Both byte-swap operations are involutions: applying the 81-word
header swap (per-word byte reassembly starting at the AdvanceDistance
field) twice to any header returns the original header, on either host
byte order, and applying the 16-bit pixel swap (adjacent-byte-pair
exchange) twice to any buffer, with any byte count, returns the original
buffer. -/
theorem headerSwap_invol_aux (big : Bool) :
    ∀ ws : List Nat, (∀ w ∈ ws, w < 2 ^ 32) → headerSwap big (headerSwap big ws) = ws := by
  intro ws
  induction ws with
  | nil => intro _; rfl
  | cons w rest ih =>
    intro hbound
    have hw := hbound w (by simp)
    have hrest := ih (fun x hx => hbound x (by simp [hx]))
    simp only [headerSwap, List.map_cons] at hrest ⊢
    rw [wordSwap_invol big w hw, hrest]

theorem c9_swap_involution :
    (∀ (big : Bool) (ws : List Nat), ws.length = 81 → (∀ w ∈ ws, w < 2 ^ 32) →
      headerSwap big (headerSwap big ws) = ws) ∧
    (∀ (buf : List Nat) (bytes : Nat), cups_swap (cups_swap buf bytes) bytes = buf) := by
  constructor
  · intro big ws _ hbound
    exact headerSwap_invol_aux big ws hbound
  · intro buf bytes
    exact swapPairsN_invol _ buf

/-- C9 witness: the involution evaluated on a concrete 81-word header
array and a concrete odd-length pixel buffer. -/
theorem c9_swap_involution_witness :
    headerSwap false (headerSwap false (List.replicate 81 5)) = List.replicate 81 5 :=
  c9_swap_involution.1 false (List.replicate 81 5) (by simp)
    (by intro w hw; rw [List.eq_of_mem_replicate hw]; norm_num)

/-- C6: After the derived-fields update that concludes every successful
header read (raster.c line 599) and header write (lines 477 and 510), the
remaining-row counter equals cupsHeight times cupsNumColors under PLANAR
color order and cupsHeight otherwise, and bpp equals
ceil(cupsBitsPerPixel / 8) under CHUNKED order and
ceil(cupsBitsPerColor / 8) otherwise; the same holds of the stream state
produced by a V2 header write. -/
theorem c6_derived_fields :
    (∀ r : RState,
      (cups_raster_update r).remaining =
        (if (cups_raster_update r).header.cupsColorOrder = CUPS_ORDER_PLANAR then
          (((cups_raster_update r).header.cupsHeight *
            (cups_raster_update r).header.cupsNumColors : Nat) : Int)
         else ((cups_raster_update r).header.cupsHeight : Int)) ∧
      (cups_raster_update r).bpp =
        (if (cups_raster_update r).header.cupsColorOrder = CUPS_ORDER_CHUNKED then
          ((cups_raster_update r).header.cupsBitsPerPixel + 7) / 8
         else ((cups_raster_update r).header.cupsBitsPerColor + 7) / 8)) ∧
    (∀ (r : RState) (h : PageHeader) (wres : Int),
      (cupsRasterWriteHeader2 r h wres).2.remaining =
        (if r.mode = CupsMode.write then
          (if (cupsRasterWriteHeader2 r h wres).2.header.cupsColorOrder = CUPS_ORDER_PLANAR then
            (((cupsRasterWriteHeader2 r h wres).2.header.cupsHeight *
              (cupsRasterWriteHeader2 r h wres).2.header.cupsNumColors : Nat) : Int)
           else ((cupsRasterWriteHeader2 r h wres).2.header.cupsHeight : Int))
         else r.remaining)) := by
  have key : ∀ r : RState,
      (cups_raster_update r).remaining =
        (if (cups_raster_update r).header.cupsColorOrder = CUPS_ORDER_PLANAR then
          (((cups_raster_update r).header.cupsHeight *
            (cups_raster_update r).header.cupsNumColors : Nat) : Int)
         else ((cups_raster_update r).header.cupsHeight : Int)) ∧
      (cups_raster_update r).bpp =
        (if (cups_raster_update r).header.cupsColorOrder = CUPS_ORDER_CHUNKED then
          ((cups_raster_update r).header.cupsBitsPerPixel + 7) / 8
         else ((cups_raster_update r).header.cupsBitsPerColor + 7) / 8) := by
    intro r
    unfold cups_raster_update
    rcases hc : r.compressed <;> simp only [hc, if_true, if_false] <;>
      constructor <;> trivial
  refine ⟨key, ?_⟩
  intro r h wres
  by_cases hm : r.mode = CupsMode.write
  · have hmode : (r.mode ≠ CupsMode.write) = False := by simp [hm]
    simp only [cupsRasterWriteHeader2, hmode, if_false, hm, if_true]
    exact (key _).1
  · simp [cupsRasterWriteHeader2, hm]

/-- C8: The byte-I/O read primitive returns only 0, the requested
length, or -1: it loops over the OS read until the full request arrives,
returns 0 on EOF even after partial progress, retries with zero progress
counted on an interrupt-class error, and returns -1 on any other
error. -/
theorem c8_read_exact (bytes : Nat) :
    (∀ (evs : List OSEv) (res : Int × List Nat),
      cups_read_loop evs bytes 0 [] = some res →
      res.1 = 0 ∨ res.1 = (bytes : Int) ∨ res.1 = -1) ∧
    (∀ (evs : List OSEv) (total : Nat) (acc : List Nat), total < bytes →
      cups_read_loop (OSEv.chunk [] :: evs) bytes total acc = some (0, acc)) ∧
    (∀ (evs : List OSEv) (total : Nat) (acc : List Nat),
      cups_read_loop (OSEv.eintr :: evs) bytes total acc =
        cups_read_loop evs bytes total acc) ∧
    (∀ (evs : List OSEv) (total : Nat) (acc : List Nat), total < bytes →
      cups_read_loop (OSEv.err :: evs) bytes total acc = some (-1, acc)) := by
  refine ⟨?_, ?_, ?_, ?_⟩
  · intro evs res h
    exact cups_read_loop_range bytes evs 0 [] res (Nat.zero_le _) h
  · intro evs total acc htot
    unfold cups_read_loop
    rw [if_neg (by omega)]
    simp
  · intro evs total acc
    by_cases htot : bytes ≤ total
    · conv_lhs => unfold cups_read_loop
      conv_rhs => unfold cups_read_loop
      rw [if_pos htot, if_pos htot]
    · conv_lhs => unfold cups_read_loop
      rw [if_neg htot]
  · intro evs total acc htot
    unfold cups_read_loop
    rw [if_neg (by omega)]

/-- C8 witness: the theorem instantiated on a request of 3 bytes served
by two chunks, on an EOF after partial progress, on an interrupt retry
and on a permanent error. -/
theorem c8_read_exact_witness :
    ((0 : Int) = 0 ∨ (0 : Int) = (3 : Nat) ∨ (0 : Int) = -1) ∧
    cups_read_loop [OSEv.chunk []] 3 1 [5] = some (0, [5]) ∧
    cups_read_loop [OSEv.eintr, OSEv.chunk [1, 2, 3]] 3 0 [] =
      cups_read_loop [OSEv.chunk [1, 2, 3]] 3 0 [] ∧
    cups_read_loop [OSEv.err] 3 2 [4, 5] = some (-1, [4, 5]) :=
  ⟨(c8_read_exact 3).1 [OSEv.chunk []] (0, []) (by decide),
   (c8_read_exact 3).2.1 [] 1 [5] (by decide),
   (c8_read_exact 3).2.2.1 [OSEv.chunk [1, 2, 3]] 0 [],
   (c8_read_exact 3).2.2.2 [] 2 [4, 5] (by decide)⟩

/-- C3: For every 32-bit value read as the first word of a read-mode
stream, open succeeds exactly on the six sync constants, setting the
compressed flag iff the sync is SYNCv2 or REVSYNCv2 and the swapped flag
iff the sync is REVSYNC, REVSYNCv1 or REVSYNCv2; any other value makes
open fail. -/
theorem c3_open_sync (v : Nat) :
    (cupsRasterOpenRead v = none ↔
      v ≠ CUPS_RASTER_SYNC ∧ v ≠ CUPS_RASTER_REVSYNC ∧ v ≠ CUPS_RASTER_SYNCv1 ∧
      v ≠ CUPS_RASTER_REVSYNCv1 ∧ v ≠ CUPS_RASTER_SYNCv2 ∧ v ≠ CUPS_RASTER_REVSYNCv2) ∧
    (∀ comp sw : Bool, cupsRasterOpenRead v = some (comp, sw) →
      ((comp = true ↔ v = CUPS_RASTER_SYNCv2 ∨ v = CUPS_RASTER_REVSYNCv2) ∧
       (sw = true ↔ v = CUPS_RASTER_REVSYNC ∨ v = CUPS_RASTER_REVSYNCv1 ∨
          v = CUPS_RASTER_REVSYNCv2))) := by
  by_cases hc : v ≠ CUPS_RASTER_SYNC ∧ v ≠ CUPS_RASTER_REVSYNC ∧ v ≠ CUPS_RASTER_SYNCv1 ∧
      v ≠ CUPS_RASTER_REVSYNCv1 ∧ v ≠ CUPS_RASTER_SYNCv2 ∧ v ≠ CUPS_RASTER_REVSYNCv2
  · constructor
    · simp [cupsRasterOpenRead, hc]
    · intro comp sw h
      simp [cupsRasterOpenRead, hc] at h
  · constructor
    · simp [cupsRasterOpenRead, hc]
    · intro comp sw h
      simp only [cupsRasterOpenRead, hc, if_false, Option.some.injEq, Prod.mk.injEq] at h
      obtain ⟨h1, h2⟩ := h
      constructor
      · rw [← h1]
        by_cases hp : v = CUPS_RASTER_SYNCv2 ∨ v = CUPS_RASTER_REVSYNCv2 <;> simp [hp]
      · rw [← h2]
        by_cases hp : v = CUPS_RASTER_REVSYNC ∨ v = CUPS_RASTER_REVSYNCv1 ∨
            v = CUPS_RASTER_REVSYNCv2 <;> simp [hp]

/-- C3 witness: the flag characterization evaluated at the REVSYNCv2
sync word, which opens compressed and swapped. -/
theorem c3_open_sync_witness :
    (true = true ↔ (0x33536152 : Nat) = CUPS_RASTER_SYNCv2 ∨
      (0x33536152 : Nat) = CUPS_RASTER_REVSYNCv2) ∧
    (true = true ↔ (0x33536152 : Nat) = CUPS_RASTER_REVSYNC ∨
      (0x33536152 : Nat) = CUPS_RASTER_REVSYNCv1 ∨
      (0x33536152 : Nat) = CUPS_RASTER_REVSYNCv2) :=
  (c3_open_sync 0x33536152).2 true true (by decide)

/-- C2: One step of the buffered reader's loop, for a nonzero
outstanding request: with an empty buffer and a small (below 16 bytes)
request the whole `bufsize` buffer is refilled through the byte-I/O layer
and bytes are copied from it; with an empty buffer and a large request
the bytes are read directly into the destination, bypassing the buffer;
with a nonempty buffer the minimum of (outstanding, buffered) bytes is
copied out; and any underlying read returning 0 or less makes the
call fail with 0 (the last conjunct lifts the loop failure to
`cups_raster_read` returning 0). -/
theorem c2_buffered_read :
    (∀ (bufsize fuel n : Nat) (fd : FD) (avail : List Nat),
      n ≠ 0 → avail.length = 0 → n < 16 → 0 < (fdRead fd bufsize).1 →
      rasterReadGo bufsize (fuel + 1) n fd avail =
        Option.map
          (fun x => ((fdRead fd bufsize).2.1.take (min n (fdRead fd bufsize).2.1.length) ++
            x.1, x.2))
          (rasterReadGo bufsize fuel (n - min n (fdRead fd bufsize).2.1.length)
            (fdRead fd bufsize).2.2
            ((fdRead fd bufsize).2.1.drop (min n (fdRead fd bufsize).2.1.length)))) ∧
    (∀ (bufsize fuel n : Nat) (fd : FD) (avail : List Nat),
      n ≠ 0 → avail.length = 0 → n < 16 → (fdRead fd bufsize).1 ≤ 0 →
      rasterReadGo bufsize (fuel + 1) n fd avail = none) ∧
    (∀ (bufsize fuel n : Nat) (fd : FD) (avail : List Nat),
      n ≠ 0 → avail.length = 0 → 16 ≤ n → 0 < (fdRead fd n).1 →
      rasterReadGo bufsize (fuel + 1) n fd avail =
        some ((fdRead fd n).2.1, (fdRead fd n).2.2, avail)) ∧
    (∀ (bufsize fuel n : Nat) (fd : FD) (avail : List Nat),
      n ≠ 0 → avail.length = 0 → 16 ≤ n → (fdRead fd n).1 ≤ 0 →
      rasterReadGo bufsize (fuel + 1) n fd avail = none) ∧
    (∀ (bufsize fuel n : Nat) (fd : FD) (avail : List Nat),
      n ≠ 0 → avail.length ≠ 0 →
      rasterReadGo bufsize (fuel + 1) n fd avail =
        Option.map (fun x => (avail.take (min n avail.length) ++ x.1, x.2))
          (rasterReadGo bufsize fuel (n - min n avail.length) fd
            (avail.drop (min n avail.length)))) ∧
    (∀ (r : RState) (bytes : Nat), r.compressed = true →
      rasterReadGo (growBufsize r) (bytes + 1) bytes r.fd r.avail = none →
      cups_raster_read r bytes = (0, [], r)) := by
  refine ⟨?_, ?_, ?_, ?_, ?_, ?_⟩
  · intro bufsize fuel n fd avail hn hav hsmall hpos
    rw [rasterReadGo]
    rw [if_neg hn, if_pos hav, if_pos hsmall, if_neg (by omega)]
    rcases hrec : rasterReadGo bufsize fuel (n - min n (fdRead fd bufsize).2.1.length)
        (fdRead fd bufsize).2.2
        ((fdRead fd bufsize).2.1.drop (min n (fdRead fd bufsize).2.1.length)) with
      _ | ⟨o, f2, a2⟩ <;> simp [hrec]
  · intro bufsize fuel n fd avail hn hav hsmall hfail
    rw [rasterReadGo]
    rw [if_neg hn, if_pos hav, if_pos hsmall, if_pos hfail]
  · intro bufsize fuel n fd avail hn hav hlarge hpos
    rw [rasterReadGo]
    rw [if_neg hn, if_pos hav, if_neg (by omega), if_neg (by omega)]
  · intro bufsize fuel n fd avail hn hav hlarge hfail
    rw [rasterReadGo]
    rw [if_neg hn, if_pos hav, if_neg (by omega), if_pos hfail]
  · intro bufsize fuel n fd avail hn hav
    rw [rasterReadGo]
    rw [if_neg hn, if_neg hav]
    rcases hrec : rasterReadGo bufsize fuel (n - min n avail.length) fd
        (avail.drop (min n avail.length)) with _ | ⟨o, f2, a2⟩ <;> simp [hrec]
  · intro r bytes hc hfail
    have hcc : (r.compressed = false) = False := by simp [hc]
    simp only [cups_raster_read, hcc, if_false, hfail]

/-- C2 witness: the direct-read branch evaluated on a 16-byte request
against an empty buffer, and the refill branch evaluated on a 2-byte
request against a 4-byte buffer refill. -/
theorem c2_buffered_read_witness :
    rasterReadGo 0 1 16 ⟨List.replicate 16 1, false⟩ [] =
      some ((fdRead ⟨List.replicate 16 1, false⟩ 16).2.1,
        (fdRead ⟨List.replicate 16 1, false⟩ 16).2.2, []) ∧
    rasterReadGo 4 6 2 ⟨[9, 8, 7, 6], false⟩ [] =
      Option.map
        (fun x => ((fdRead ⟨[9, 8, 7, 6], false⟩ 4).2.1.take
          (min 2 (fdRead ⟨[9, 8, 7, 6], false⟩ 4).2.1.length) ++ x.1, x.2))
        (rasterReadGo 4 5 (2 - min 2 (fdRead ⟨[9, 8, 7, 6], false⟩ 4).2.1.length)
          (fdRead ⟨[9, 8, 7, 6], false⟩ 4).2.2
          ((fdRead ⟨[9, 8, 7, 6], false⟩ 4).2.1.drop
            (min 2 (fdRead ⟨[9, 8, 7, 6], false⟩ 4).2.1.length))) :=
  ⟨c2_buffered_read.2.2.1 0 0 16 ⟨List.replicate 16 1, false⟩ [] (by decide) rfl (by decide)
      (by decide),
   c2_buffered_read.1 4 5 2 ⟨[9, 8, 7, 6], false⟩ [] (by decide) rfl (by decide) (by decide)⟩

/-- C7: For every read stream, the header read requests exactly the V1
record size when the sync is SYNCv1 or REVSYNCv1 and the V2 record size
otherwise; the record is zeroed before reading, so on success the
returned V2-shaped record is the bytes read followed by zeros (a V1 read
leaves the V2-only tail at zero) and the byte-I/O layer delivered the
full record; whenever fewer bytes than the expected record size are
obtained the header read fails with 0. -/
theorem c7_header_read (r : RState) (hm : r.mode = CupsMode.read) :
    (hdrReadLen r =
      if r.sync = CUPS_RASTER_SYNCv1 ∨ r.sync = CUPS_RASTER_REVSYNCv1 then hdrV1Size
      else hdrV2Size) ∧
    (∀ (out : List Nat) (r2 : RState),
      cupsRasterReadHeaderBytes r = some (out, r2) →
      (cups_raster_read r (hdrReadLen r)).1 = (hdrReadLen r : Int) ∧
      out.length = hdrV2Size ∧
      out = (cups_raster_read r (hdrReadLen r)).2.1 ++
        List.replicate (hdrV2Size - hdrReadLen r) 0) ∧
    ((cups_raster_read r (hdrReadLen r)).1 < (hdrReadLen r : Int) →
      cupsRasterReadHeaderBytes r = none) := by
  have hmode : (r.mode ≠ CupsMode.read) = False := by simp [hm]
  have hpos : 0 < hdrReadLen r := by
    unfold hdrReadLen hdrV1Size hdrV2Size
    split <;> norm_num
  have hle : hdrReadLen r ≤ hdrV2Size := by
    unfold hdrReadLen hdrV1Size hdrV2Size
    split <;> norm_num
  refine ⟨rfl, ?_, ?_⟩
  · intro out r2 h
    simp only [cupsRasterReadHeaderBytes, hmode, if_false] at h
    split at h
    · exact absurd h (by simp)
    · rename_i hge
      have hexact := @cups_raster_read_exact r (hdrReadLen r) hpos (by omega)
      refine ⟨hexact.1, ?_, ?_⟩
      · simp only [Option.some.injEq, Prod.mk.injEq] at h
        obtain ⟨h1, -⟩ := h
        rw [← h1]
        simp [writeAt, hexact.2]
        omega
      · simp only [Option.some.injEq, Prod.mk.injEq] at h
        obtain ⟨h1, -⟩ := h
        rw [← h1]
        simp [writeAt, hexact.2, List.drop_replicate]
  · intro hlt
    simp only [cupsRasterReadHeaderBytes, hmode, if_false]
    rw [if_pos hlt]

/-- C7 witness: the short-read failure clause evaluated on a V1-sync
uncompressed stream whose descriptor is at EOF: the raw record read
returns less than the 1796-byte V1 record, and the header read fails. -/
theorem c7_header_read_witness :
    cupsRasterReadHeaderBytes c7wit_st = none :=
  (c7_header_read c7wit_st rfl).2.2 (by decide)

/-- C1: The decompressor decodes each row block as a one-byte row repeat
count followed by opcodes until the row budget is filled.  First
conjunct: an opcode byte `b` with high bit clear reads the next `bpp`
bytes as a pel and emits it pel-by-pel over the run length
`(b + 1) * bpp` clamped to the remaining row budget (when the clamp is
misaligned the last pel still completes, as the C overlapping copy
does), consuming the clamped length of the budget.  Second conjunct: the
unclamped special case emits the pel exactly `b + 1` times.  Third
conjunct: when the clamped length is below `bpp`, the opcode loop
aborts, leaving the budget as residual.  Fourth conjunct: on the wire
`02 03 aa` with `bpp = 1` and row length 4, three successive full-row
reads each deliver `[aa, aa, aa, aa]` (the row is emitted
repeat + 1 = 3 times) and finish the page.  Fifth conjunct: the clamped
wire `00 07 aa` on a 4-byte row also yields `[aa, aa, aa, aa]`. -/
theorem c1_row_decode :
    (∀ (bpp fuel : Nat) (r : RState) (row : List Nat) (pos budget b : Nat),
      0 < budget →
      (cups_raster_read r 1).1 ≠ 0 →
      (cups_raster_read r 1).2.1 = [b] →
      b &&& 128 = 0 →
      bpp ≤ min ((b + 1) * bpp) budget →
      decodeOps bpp (fuel + 1) r row pos budget =
        (if (cups_raster_read ((cups_raster_read r 1).2.2) bpp).1 = 0 then none
         else
           decodeOps bpp fuel (cups_raster_read ((cups_raster_read r 1).2.2) bpp).2.2
             (writeAt row pos
               (List.flatten (List.replicate ((min ((b + 1) * bpp) budget + bpp - 1) / bpp)
                 (cups_raster_read ((cups_raster_read r 1).2.2) bpp).2.1)))
             (pos + ((min ((b + 1) * bpp) budget + bpp - 1) / bpp) * bpp)
             (budget - min ((b + 1) * bpp) budget))) ∧
    (∀ (bpp fuel : Nat) (r : RState) (row : List Nat) (pos budget b : Nat),
      (cups_raster_read r 1).1 ≠ 0 →
      (cups_raster_read r 1).2.1 = [b] →
      b &&& 128 = 0 →
      0 < bpp →
      (b + 1) * bpp ≤ budget →
      decodeOps bpp (fuel + 1) r row pos budget =
        (if (cups_raster_read ((cups_raster_read r 1).2.2) bpp).1 = 0 then none
         else
           decodeOps bpp fuel (cups_raster_read ((cups_raster_read r 1).2.2) bpp).2.2
             (writeAt row pos
               (List.flatten (List.replicate (b + 1)
                 (cups_raster_read ((cups_raster_read r 1).2.2) bpp).2.1)))
             (pos + (b + 1) * bpp) (budget - (b + 1) * bpp))) ∧
    (∀ (bpp fuel : Nat) (r : RState) (row : List Nat) (pos budget b : Nat),
      0 < budget →
      (cups_raster_read r 1).1 ≠ 0 →
      (cups_raster_read r 1).2.1 = [b] →
      b &&& 128 = 0 →
      min ((b + 1) * bpp) budget < bpp →
      decodeOps bpp (fuel + 1) r row pos budget =
        some (row, budget, (cups_raster_read r 1).2.2)) ∧
    ((cupsRasterReadPixels c1st [0, 0, 0, 0] 4).1 = 4 ∧
     (cupsRasterReadPixels c1st [0, 0, 0, 0] 4).2.1 = [170, 170, 170, 170] ∧
     (cupsRasterReadPixels
        (cupsRasterReadPixels c1st [0, 0, 0, 0] 4).2.2 [0, 0, 0, 0] 4).1 = 4 ∧
     (cupsRasterReadPixels
        (cupsRasterReadPixels c1st [0, 0, 0, 0] 4).2.2 [0, 0, 0, 0] 4).2.1 =
       [170, 170, 170, 170] ∧
     (cupsRasterReadPixels
        (cupsRasterReadPixels
          (cupsRasterReadPixels c1st [0, 0, 0, 0] 4).2.2 [0, 0, 0, 0] 4).2.2
        [0, 0, 0, 0] 4).1 = 4 ∧
     (cupsRasterReadPixels
        (cupsRasterReadPixels
          (cupsRasterReadPixels c1st [0, 0, 0, 0] 4).2.2 [0, 0, 0, 0] 4).2.2
        [0, 0, 0, 0] 4).2.1 = [170, 170, 170, 170] ∧
     (cupsRasterReadPixels
        (cupsRasterReadPixels
          (cupsRasterReadPixels c1st [0, 0, 0, 0] 4).2.2 [0, 0, 0, 0] 4).2.2
        [0, 0, 0, 0] 4).2.2.count = 0 ∧
     (cupsRasterReadPixels
        (cupsRasterReadPixels
          (cupsRasterReadPixels c1st [0, 0, 0, 0] 4).2.2 [0, 0, 0, 0] 4).2.2
        [0, 0, 0, 0] 4).2.2.remaining = 0) ∧
    ((cupsRasterReadPixels c1clamp_st [0, 0, 0, 0] 4).1 = 4 ∧
     (cupsRasterReadPixels c1clamp_st [0, 0, 0, 0] 4).2.1 = [170, 170, 170, 170] ∧
     (cupsRasterReadPixels c1clamp_st [0, 0, 0, 0] 4).2.2.remaining = 0) := by
  refine ⟨?_, ?_, ?_, ?_, ?_⟩
  · intro bpp fuel r row pos budget b hbud h1 h2 hb hc
    simp only [decodeOps]
    rw [if_neg (by omega)]
    rw [if_neg h1, h2]
    simp only [List.headD_cons]
    rw [if_neg (by simp [hb])]
    rw [if_neg (by omega)]
  · intro bpp fuel r row pos budget b h1 h2 hb hbpp hbudget
    have hp : 0 < (b + 1) * bpp := Nat.mul_pos (Nat.succ_pos b) hbpp
    have hle : bpp ≤ (b + 1) * bpp := Nat.le_mul_of_pos_left bpp (Nat.succ_pos b)
    have hreps : ((b + 1) * bpp + bpp - 1) / bpp = b + 1 := by
      have e1 : (b + 1) * bpp + bpp - 1 = (bpp - 1) + bpp * (b + 1) := by
        rw [Nat.mul_comm bpp (b + 1)]
        generalize (b + 1) * bpp = q
        omega
      rw [e1, Nat.add_mul_div_left _ _ hbpp, Nat.div_eq_of_lt (by omega)]
      omega
    simp only [decodeOps]
    rw [if_neg (by omega)]
    rw [if_neg h1, h2]
    simp only [List.headD_cons]
    rw [if_neg (by simp [hb])]
    rw [Nat.min_eq_left hbudget]
    rw [if_neg (by omega)]
    rw [hreps]
  · intro bpp fuel r row pos budget b hbud h1 h2 hb habort
    simp only [decodeOps]
    rw [if_neg (by omega)]
    rw [if_neg h1, h2]
    simp only [List.headD_cons]
    rw [if_neg (by simp [hb])]
    rw [if_pos habort]
  · decide
  · decide

/-- C1 witness: the clamped repeat-run equation applied with `b = 7`
and a two-byte budget (the run of eight is clamped to two pel copies),
and the abort clause applied at `bpp = 2` with a one-byte budget. -/
theorem c1_row_decode_witness :
    (decodeOps 1 2 c1wit2_st [5, 5] 0 2 =
      (if (cups_raster_read ((cups_raster_read c1wit2_st 1).2.2) 1).1 = 0 then none
       else
         decodeOps 1 1 (cups_raster_read ((cups_raster_read c1wit2_st 1).2.2) 1).2.2
           (writeAt [5, 5] 0
             (List.flatten (List.replicate ((min ((7 + 1) * 1) 2 + 1 - 1) / 1)
               (cups_raster_read ((cups_raster_read c1wit2_st 1).2.2) 1).2.1)))
           (0 + ((min ((7 + 1) * 1) 2 + 1 - 1) / 1) * 1)
           (2 - min ((7 + 1) * 1) 2))) ∧
    decodeOps 2 1 c1wit_st [7] 0 1 = some ([7], 1, (cups_raster_read c1wit_st 1).2.2) :=
  ⟨c1_row_decode.1 1 1 c1wit2_st [5, 5] 0 2 7 (by decide) (by decide) (by decide) (by decide)
      (by decide),
   c1_row_decode.2.2.1 2 0 c1wit_st [7] 0 1 0 (by decide) (by decide) (by decide) (by decide)
      (by decide)⟩

/-- C4: the compressed path's 16-bit swap is applied to the residual
opcode budget rather than the decoded row.  On a REVSYNCv2 stream with
cupsBitsPerColor = 16 and a fully decoded 4-byte row `aa bb aa bb`, the
swap condition holds, yet the delivered row is unswapped, because
`cups_swap(ptr, bytes)` runs with `bytes = 0` after the opcode loop; a
full-row swap would have delivered `bb aa bb aa`. -/
theorem c4_residual_swap_eval :
    (cupsRasterReadPixels c4st [0, 0, 0, 0] 4).1 = 4 ∧
    (cupsRasterReadPixels c4st [0, 0, 0, 0] 4).2.1 = [170, 187, 170, 187] ∧
    cups_swap [170, 187, 170, 187] 4 = [187, 170, 187, 170] ∧
    (c4st.header.cupsBitsPerColor = 16 ∧ c4st.swapped = true) := by
  refine ⟨by decide, by decide, by decide, by decide, by decide⟩

/-- C5 counterexample: on an uncompressed read stream whose byte-I/O
layer reports a permanent error (`cups_read` returns `-1`), the claim
says read-pixels returns 0, but the code's `!cups_read(...)` test only
treats 0 as failure, so the call returns `len` = 4. -/
theorem c5_error_counterexample :
    (fdRead c5st.fd 4).1 = -1 ∧
    (cupsRasterReadPixels c5st [9, 9, 9, 9] 4).1 = 4 ∧
    (4 : Nat) ≠ 0 := by
  refine ⟨by decide, by decide, by decide⟩

/-- C5 (amended): for every uncompressed read stream with nonzero
remaining rows, read-pixels decrements `remaining` by
`len / cupsBytesPerLine` before the I/O; it returns 0 exactly when the
underlying read returns 0 (EOF), and returns `len` both when the read
succeeds and when it reports the permanent-error indicator `-1`, since
only a zero return is treated as failure. -/
theorem c5_uncompressed_read (r : RState) (p0 : List Nat) (len : Nat)
    (hm : r.mode = CupsMode.read) (hc : r.compressed = false) (hr : r.remaining ≠ 0) :
    (cupsRasterReadPixels r p0 len).2.2.remaining =
      r.remaining - ((len / r.header.cupsBytesPerLine : Nat) : Int) ∧
    ((fdRead r.fd len).1 = 0 → (cupsRasterReadPixels r p0 len).1 = 0) ∧
    ((fdRead r.fd len).1 ≠ 0 → (cupsRasterReadPixels r p0 len).1 = len) := by
  have hguard : (r.mode ≠ CupsMode.read ∨ r.remaining = 0) = False := by
    simp [hm, hr]
  simp only [cupsRasterReadPixels, hguard, if_false, hc, if_true]
  by_cases hz : (fdRead r.fd len).1 = 0
  · rw [if_pos hz]
    exact ⟨rfl, fun _ => rfl, fun hnz => absurd hz hnz⟩
  · rw [if_neg hz]
    refine ⟨rfl, fun h0 => absurd h0 hz, fun _ => rfl⟩

/-- C5 witness: the amended theorem evaluated on a healthy uncompressed
stream reading one full 4-byte row. -/
theorem c5_uncompressed_read_witness :
    (cupsRasterReadPixels c5wit_st [9, 9, 9, 9] 4).2.2.remaining =
      c5wit_st.remaining - ((4 / c5wit_st.header.cupsBytesPerLine : Nat) : Int) ∧
    ((fdRead c5wit_st.fd 4).1 = 0 → (cupsRasterReadPixels c5wit_st [9, 9, 9, 9] 4).1 = 0) ∧
    ((fdRead c5wit_st.fd 4).1 ≠ 0 → (cupsRasterReadPixels c5wit_st [9, 9, 9, 9] 4).1 = 4) :=
  c5_uncompressed_read c5wit_st [9, 9, 9, 9] 4 rfl rfl (by decide)

/-- C10: read-pixels on an uncompressed read stream and write-pixels on
a write stream, each with nonzero remaining rows, decrement the
remaining-row counter by `len / cupsBytesPerLine` before the underlying
I/O, so the decrement persists for every outcome of the byte-I/O layer
(the descriptor state and the write result are universally
quantified). -/
theorem c10_decrement_persists :
    (∀ (r : RState) (p0 : List Nat) (len : Nat),
      r.mode = CupsMode.read → r.compressed = false → r.remaining ≠ 0 →
      (cupsRasterReadPixels r p0 len).2.2.remaining =
        r.remaining - ((len / r.header.cupsBytesPerLine : Nat) : Int)) ∧
    (∀ (r : RState) (len : Nat) (wres : Int),
      r.mode = CupsMode.write → r.remaining ≠ 0 →
      (cupsRasterWritePixels r len wres).2.remaining =
        r.remaining - ((len / r.header.cupsBytesPerLine : Nat) : Int)) := by
  constructor
  · intro r p0 len hm hc hr
    have hguard : (r.mode ≠ CupsMode.read ∨ r.remaining = 0) = False := by
      simp [hm, hr]
    simp only [cupsRasterReadPixels, hguard, if_false, hc, if_true]
    by_cases hz : (fdRead r.fd len).1 = 0
    · rw [if_pos hz]
    · rw [if_neg hz]
  · intro r len wres hm hr
    have hguard : (r.mode ≠ CupsMode.write ∨ r.remaining = 0) = False := by
      simp [hm, hr]
    simp only [cupsRasterWritePixels, hguard, if_false]

/-- C10 witness: both clauses evaluated on failing I/O: a read against
an erroring descriptor and a write whose `cups_write` returns `-1`; the
remaining-row counter is decremented by one row in both cases. -/
theorem c10_decrement_persists_witness :
    (cupsRasterReadPixels c5st [9, 9, 9, 9] 4).2.2.remaining =
      c5st.remaining - ((4 / c5st.header.cupsBytesPerLine : Nat) : Int) ∧
    (cupsRasterWritePixels c10w_st 4 (-1)).2.remaining =
      c10w_st.remaining - ((4 / c10w_st.header.cupsBytesPerLine : Nat) : Int) :=
  ⟨c10_decrement_persists.1 c5st [9, 9, 9, 9] 4 rfl rfl (by decide),
   c10_decrement_persists.2 c10w_st 4 (-1) rfl (by decide)⟩
